import Mathlib

/-!
Verification development for the Manager_API request pipeline
(`src/cache.py`, `src/ratelimit.py`, `src/concurrent_control.py`,
`src/router.py`, `src/server.py`).

Each Python class is shallowly embedded as a Lean structure whose
operations are pure state-passing functions.  Wall-clock time is passed
explicitly as a rational `now` argument; Python `dict` /
`collections.OrderedDict` values are modelled as association lists in
insertion order (head = oldest, last = most recently inserted), which is
exactly the order `OrderedDict` iterates in and the order that
`move_to_end` / re-insertion manipulate.
-/

namespace ManagerAPI

/-- Association-list lookup (Python `d[k]` / `k in d`). -/
def alookup {β : Type} : List (String × β) → String → Option β
  | [], _ => none
  | (k, v) :: rest, key => if k = key then some v else alookup rest key

/-- Association-list deletion (Python `del d[k]` for a present key;
dict keys are unique, so removing every binding of `key` removes the
sole one). -/
def aerase {β : Type} : List (String × β) → String → List (String × β)
  | [], _ => []
  | (k, v) :: rest, key => if k = key then aerase rest key else (k, v) :: aerase rest key

/-- Python `d[k] = v`: overwrite in place if present, else append at the
end (dicts preserve insertion order). -/
def astore {β : Type} : List (String × β) → String → β → List (String × β)
  | [], key, v => [(key, v)]
  | (k, w) :: rest, key, v =>
    if k = key then (key, v) :: rest else (k, w) :: astore rest key v

/-- Python truthiness-based defaulting `x = x or default` for an optional
numeric argument: `None` and `0` are falsy and are replaced. -/
def pyOrDefault (x : Option ℚ) (dflt : ℚ) : ℚ :=
  match x with
  | none => dflt
  | some v => if v = 0 then dflt else v

/-! ## Cache (`src/cache.py`) -/

/-- `CacheEntry.__init__(data, ttl)` state (`src/cache.py:19`).  The
value payload is opaque, hence the type parameter. -/
structure CacheEntry (α : Type) where
  data : α
  timestamp : ℚ
  ttl : ℚ
  access_count : ℕ
  last_access : ℚ
  deriving Repr, DecidableEq

/-- `CacheEntry(data, ttl)` constructed at wall-clock time `now`. -/
def CacheEntry.init {α : Type} (data : α) (ttl : ℚ) (now : ℚ) : CacheEntry α :=
  { data := data, timestamp := now, ttl := ttl, access_count := 0, last_access := now }

/-- `CacheEntry.is_expired` (`src/cache.py:29`): `time.time() - self.timestamp > self.ttl`. -/
def CacheEntry.is_expired {α : Type} (e : CacheEntry α) (now : ℚ) : Bool :=
  decide (now - e.timestamp > e.ttl)

/-- `CacheEntry.access` (`src/cache.py:33`): bump the access counter and
last-access time, return the payload. -/
def CacheEntry.access {α : Type} (e : CacheEntry α) (now : ℚ) : α × CacheEntry α :=
  (e.data, { e with access_count := e.access_count + 1, last_access := now })

/-- `LRUCache` state (`src/cache.py:40`): the `OrderedDict` is an
association list ordered oldest-first (recency order: last = most
recently used), plus the `stats` counters. -/
structure LRUCache (α : Type) where
  max_size : ℕ
  default_ttl : ℚ
  cache : List (String × CacheEntry α)
  hits : ℕ
  misses : ℕ
  evictions : ℕ
  expired : ℕ
  deriving Repr, DecidableEq

/-- `LRUCache(max_size, default_ttl)` with empty store and zeroed stats. -/
def LRUCache.init (α : Type) (max_size : ℕ) (default_ttl : ℚ) : LRUCache α :=
  { max_size := max_size, default_ttl := default_ttl, cache := [],
    hits := 0, misses := 0, evictions := 0, expired := 0 }

/-- `LRUCache.get` (`src/cache.py:55`): miss on absence; on an expired
entry delete it and count both an expiry and a miss; on a hit move the
entry to the most-recently-used end and return `entry.access()`. -/
def LRUCache.get {α : Type} (c : LRUCache α) (key : String) (now : ℚ) :
    Option α × LRUCache α :=
  match alookup c.cache key with
  | none => (none, { c with misses := c.misses + 1 })
  | some e =>
    if e.is_expired now then
      (none, { c with cache := aerase c.cache key,
                      expired := c.expired + 1, misses := c.misses + 1 })
    else
      let (v, e2) := e.access now
      (some v, { c with cache := aerase c.cache key ++ [(key, e2)],
                        hits := c.hits + 1 })

/-- The `while len(self.cache) >= self.max_size` eviction loop of
`LRUCache.set` (`src/cache.py:84`): repeatedly delete the oldest (first)
entry.  When the store is empty and the loop guard still holds (only
possible for `max_size = 0`), `next(iter(self.cache))` raises
`StopIteration`; the `Bool` result records completion (`false` =
raised), with the deletions performed so far kept. -/
def evictLoop {α : Type} (max_size : ℕ) :
    List (String × CacheEntry α) → ℕ → List (String × CacheEntry α) × ℕ × Bool
  | [], evs => if max_size = 0 then ([], evs, false) else ([], evs, true)
  | x :: rest, evs =>
    if max_size ≤ (x :: rest).length then evictLoop max_size rest (evs + 1)
    else (x :: rest, evs, true)

/-- `LRUCache.set` (`src/cache.py:76`): delete an existing binding of
`key`, run the capacity eviction loop, then insert a fresh entry at the
most-recently-used end with `ttl = ttl or self.default_ttl`.  The `Bool`
records whether the call completed without raising. -/
def LRUCache.set {α : Type} (c : LRUCache α) (key : String) (value : α)
    (ttl : Option ℚ) (now : ℚ) : LRUCache α × Bool :=
  let res := evictLoop c.max_size (aerase c.cache key) c.evictions
  if res.2.2 then
    ({ c with cache := res.1 ++ [(key, CacheEntry.init value (pyOrDefault ttl c.default_ttl) now)],
              evictions := res.2.1 }, true)
  else
    ({ c with cache := res.1, evictions := res.2.1 }, false)

/-- One `cache.set` call description, for reasoning about call sequences. -/
structure SetCall (α : Type) where
  key : String
  value : α
  ttl : Option ℚ
  now : ℚ

/-- Apply a sequence of `LRUCache.set` calls, keeping the post-state of
each call (exceptions from the defensive loop leave the recorded
post-state, as the object survives the raise). -/
def LRUCache.runSets {α : Type} (c : LRUCache α) : List (SetCall α) → LRUCache α
  | [] => c
  | s :: rest => LRUCache.runSets (LRUCache.set c s.key s.value s.ttl s.now).1 rest

/-! ### Association-list and eviction-loop lemmas -/

theorem alookup_none_aerase {β : Type} (l : List (String × β)) (key : String)
    (h : alookup l key = none) : aerase l key = l := by
  induction l with
  | nil => rfl
  | cons x rest ih =>
    obtain ⟨k, v⟩ := x
    by_cases hk : k = key
    · simp [alookup, hk] at h
    · simp only [alookup, if_neg hk] at h
      simp [aerase, hk, ih h]

theorem alookup_aerase_self {β : Type} (l : List (String × β)) (key : String) :
    alookup (aerase l key) key = none := by
  induction l with
  | nil => rfl
  | cons x rest ih =>
    obtain ⟨k, v⟩ := x
    by_cases hk : k = key
    · simp [aerase, hk, ih]
    · simp [aerase, hk, alookup, ih]

theorem alookup_append_of_none {β : Type} (l l' : List (String × β)) (key : String)
    (h : alookup l key = none) : alookup (l ++ l') key = alookup l' key := by
  induction l with
  | nil => rfl
  | cons x rest ih =>
    obtain ⟨k, v⟩ := x
    by_cases hk : k = key
    · simp [alookup, hk] at h
    · simp only [alookup, if_neg hk] at h
      simp only [List.cons_append, alookup, if_neg hk]
      exact ih h

theorem evictLoop_short {α : Type} (m : ℕ) (l : List (String × CacheEntry α)) (evs : ℕ)
    (h : l.length < m) : evictLoop m l evs = (l, evs, true) := by
  cases l with
  | nil =>
    have hm : m ≠ 0 := by simp at h; omega
    simp [evictLoop, hm]
  | cons x rest =>
    have hle : ¬ m ≤ rest.length + 1 := by simp at h; omega
    simp [evictLoop, hle]

theorem evictLoop_ok_length {α : Type} (m : ℕ) (l : List (String × CacheEntry α)) (evs : ℕ)
    (h : (evictLoop m l evs).2.2 = true) : (evictLoop m l evs).1.length < m := by
  induction l generalizing evs with
  | nil =>
    by_cases hm : m = 0
    · simp [evictLoop, hm] at h
    · simp only [evictLoop, if_neg hm, List.length_nil]
      omega
  | cons x rest ih =>
    by_cases hle : m ≤ rest.length + 1
    · simp only [evictLoop, List.length_cons, if_pos hle] at h ⊢
      exact ih _ h
    · simp only [evictLoop, List.length_cons, if_neg hle, List.length_cons]
      omega

theorem evictLoop_err {α : Type} (m : ℕ) (l : List (String × CacheEntry α)) (evs : ℕ)
    (h : (evictLoop m l evs).2.2 = false) :
    (evictLoop m l evs).1 = [] ∧ m = 0 := by
  induction l generalizing evs with
  | nil =>
    by_cases hm : m = 0
    · simp [evictLoop, hm]
    · simp [evictLoop, hm] at h
  | cons x rest ih =>
    by_cases hle : m ≤ rest.length + 1
    · simp only [evictLoop, List.length_cons, if_pos hle] at h ⊢
      exact ih _ h
    · simp [evictLoop, List.length_cons, if_neg hle] at h

theorem evictLoop_at_cap {α : Type} (m : ℕ) (l : List (String × CacheEntry α)) (evs : ℕ)
    (h1 : 1 ≤ m) (h2 : l.length = m) : evictLoop m l evs = (l.tail, evs + 1, true) := by
  cases l with
  | nil => simp at h2; omega
  | cons x rest =>
    have hle : m ≤ rest.length + 1 := by simp at h2; omega
    have hrest : rest.length < m := by simp at h2; omega
    simp only [evictLoop, List.length_cons, if_pos hle, List.tail_cons]
    exact evictLoop_short m rest (evs + 1) hrest

theorem evictLoop_no_key {α : Type} (m : ℕ) (l : List (String × CacheEntry α)) (evs : ℕ)
    (key : String) (h : alookup l key = none) :
    alookup (evictLoop m l evs).1 key = none := by
  induction l generalizing evs with
  | nil =>
    by_cases hm : m = 0 <;> simp [evictLoop, hm, alookup]
  | cons x rest ih =>
    by_cases hle : m ≤ rest.length + 1
    · simp only [evictLoop, List.length_cons, if_pos hle]
      obtain ⟨k, v⟩ := x
      by_cases hk : k = key
      · simp [alookup, hk] at h
      · simp only [alookup, if_neg hk] at h
        exact ih _ h
    · simp only [evictLoop, List.length_cons, if_neg hle]
      exact h

theorem getLast?_concat' {β : Type} (l : List β) (x : β) :
    (l ++ [x]).getLast? = some x := by
  rw [List.getLast?_append_cons]
  rfl

/-- `LRUCache.set` never changes `max_size`. -/
theorem set_preserves_max_size {α : Type} (c : LRUCache α) (key : String) (value : α)
    (ttl : Option ℚ) (now : ℚ) : ((c.set key value ttl now).1).max_size = c.max_size := by
  simp only [LRUCache.set]
  split <;> rfl

/-! ### Cache operation helper lemmas -/

theorem lru_set_length_le {α : Type} (c : LRUCache α) (key : String) (value : α)
    (ttl : Option ℚ) (now : ℚ) : ((c.set key value ttl now).1).cache.length ≤ c.max_size := by
  simp only [LRUCache.set]
  by_cases hok : (evictLoop c.max_size (aerase c.cache key) c.evictions).2.2 = true
  · rw [if_pos hok]
    have h := evictLoop_ok_length c.max_size (aerase c.cache key) c.evictions hok
    simp only [List.length_append, List.length_cons, List.length_nil]
    omega
  · rw [if_neg hok]
    have h := evictLoop_err c.max_size (aerase c.cache key) c.evictions
      (Bool.eq_false_iff.mpr hok ▸ rfl)
    rw [show ((evictLoop c.max_size (aerase c.cache key) c.evictions).1) = [] from h.1]
    simp

theorem lru_runSets_length_le {α : Type} (c : LRUCache α) (calls : List (SetCall α))
    (h : calls ≠ []) : (LRUCache.runSets c calls).cache.length ≤ c.max_size := by
  induction calls generalizing c with
  | nil => exact absurd rfl h
  | cons s rest ih =>
    cases rest with
    | nil =>
      show (LRUCache.runSets (c.set s.key s.value s.ttl s.now).1 []).cache.length ≤ c.max_size
      simpa [LRUCache.runSets] using lru_set_length_le c s.key s.value s.ttl s.now
    | cons s2 rest2 =>
      show (LRUCache.runSets (c.set s.key s.value s.ttl s.now).1 (s2 :: rest2)).cache.length
        ≤ c.max_size
      have h2 := ih (c.set s.key s.value s.ttl s.now).1 (by simp)
      rwa [set_preserves_max_size] at h2

theorem lru_set_evicts_head {α : Type} (c : LRUCache α) (key : String) (value : α)
    (ttl : Option ℚ) (now : ℚ) (hcap : c.cache.length = c.max_size) (hpos : 1 ≤ c.max_size)
    (habs : alookup c.cache key = none) :
    (c.set key value ttl now).1.cache
      = c.cache.tail ++ [(key, CacheEntry.init value (pyOrDefault ttl c.default_ttl) now)]
    ∧ (c.set key value ttl now).1.evictions = c.evictions + 1 := by
  have he : aerase c.cache key = c.cache := alookup_none_aerase _ _ habs
  have hE := evictLoop_at_cap c.max_size c.cache c.evictions hpos hcap
  simp only [LRUCache.set, he, hE]
  exact ⟨rfl, rfl⟩

theorem lru_set_mru {α : Type} (c : LRUCache α) (key : String) (value : α)
    (ttl : Option ℚ) (now : ℚ) (hok : (LRUCache.set c key value ttl now).2 = true) :
    (c.set key value ttl now).1.cache.getLast?
      = some (key, CacheEntry.init value (pyOrDefault ttl c.default_ttl) now) := by
  simp only [LRUCache.set] at hok ⊢
  by_cases h : (evictLoop c.max_size (aerase c.cache key) c.evictions).2.2 = true
  · rw [if_pos h]
    exact getLast?_concat' _ _
  · rw [if_neg h] at hok
    simp at hok

/-- C3: after any `LRUCache.set` the store size is at most `max_size`
(hence also after any nonempty sequence of `set` calls); when a fresh
key is inserted at capacity the single evicted entry is exactly the head
of the recency order (the least-recently-used one) and the eviction
counter increments once; and every completed insertion leaves the new
entry in the most-recently-used (last) position. -/
theorem lruCache_set_capacity (α : Type) (c : LRUCache α) (key : String) (value : α)
    (ttl : Option ℚ) (now : ℚ) :
    ((c.set key value ttl now).1).cache.length ≤ c.max_size
    ∧ (∀ calls : List (SetCall α), calls ≠ [] →
        (LRUCache.runSets c calls).cache.length ≤ c.max_size)
    ∧ (c.cache.length = c.max_size → 1 ≤ c.max_size → alookup c.cache key = none →
        (c.set key value ttl now).1.cache
          = c.cache.tail ++ [(key, CacheEntry.init value (pyOrDefault ttl c.default_ttl) now)]
        ∧ (c.set key value ttl now).1.evictions = c.evictions + 1)
    ∧ ((c.set key value ttl now).2 = true →
        (c.set key value ttl now).1.cache.getLast?
          = some (key, CacheEntry.init value (pyOrDefault ttl c.default_ttl) now)) :=
  ⟨lru_set_length_le c key value ttl now,
   fun calls h => lru_runSets_length_le c calls h,
   fun h1 h2 h3 => lru_set_evicts_head c key value ttl now h1 h2 h3,
   fun hok => lru_set_mru c key value ttl now hok⟩

/-- A one-slot cache holding a single entry, at capacity. -/
def cacheAtCap : LRUCache ℕ :=
  { max_size := 1, default_ttl := 300, cache := [("a", CacheEntry.init 5 300 0)],
    hits := 0, misses := 0, evictions := 0, expired := 0 }

/-- Witness for C3 at a concrete one-slot cache: inserting `"b"` evicts
the head `"a"` and lands `"b"` in the most-recently-used position. -/
theorem lruCache_set_capacity_witness :
    (cacheAtCap.cache.length = cacheAtCap.max_size ∧ 1 ≤ cacheAtCap.max_size
      ∧ alookup cacheAtCap.cache "b" = none ∧ (cacheAtCap.set "b" 7 none 1).2 = true)
    ∧ (cacheAtCap.set "b" 7 none 1).1.cache
        = cacheAtCap.cache.tail ++ [("b", CacheEntry.init 7 (pyOrDefault none cacheAtCap.default_ttl) 1)]
    ∧ (LRUCache.runSets cacheAtCap [⟨"b", 7, none, 1⟩]).cache.length ≤ cacheAtCap.max_size
    ∧ (cacheAtCap.set "b" 7 none 1).1.cache.getLast?
        = some ("b", CacheEntry.init 7 (pyOrDefault none cacheAtCap.default_ttl) 1) := by
  refine ⟨⟨by decide, by decide, by decide, by decide⟩, ?_, ?_, ?_⟩
  · exact ((lruCache_set_capacity ℕ cacheAtCap "b" 7 none 1).2.2.1
      (by decide) (by decide) (by decide)).1
  · exact (lruCache_set_capacity ℕ cacheAtCap "b" 7 none 1).2.1 [⟨"b", 7, none, 1⟩] (by simp)
  · exact (lruCache_set_capacity ℕ cacheAtCap "b" 7 none 1).2.2.2 (by decide)

/-- C4: `LRUCache.get` misses exactly when the key is absent or the
entry is logically expired (`now - creation > ttl`); an expired read
deletes the entry and bumps both the expired and miss counters; a hit
moves the entry to the most-recently-used end, bumps its access counter
and the hit counter, and returns the stored payload. -/
theorem lruCache_get_spec {α : Type} (c : LRUCache α) (key : String) (now : ℚ) :
    ((c.get key now).1 = none ↔
        alookup c.cache key = none ∨
          ∃ e, alookup c.cache key = some e ∧ e.ttl < now - e.timestamp)
    ∧ (alookup c.cache key = none →
        (c.get key now).2 = { c with misses := c.misses + 1 })
    ∧ (∀ e, alookup c.cache key = some e → e.ttl < now - e.timestamp →
        (c.get key now).2 = { c with cache := aerase c.cache key,
                                     expired := c.expired + 1, misses := c.misses + 1 })
    ∧ (∀ e, alookup c.cache key = some e → ¬ e.ttl < now - e.timestamp →
        (c.get key now).1 = some e.data
        ∧ (c.get key now).2 = { c with
            cache := aerase c.cache key ++
              [(key, { e with access_count := e.access_count + 1, last_access := now })],
            hits := c.hits + 1 }) := by
  cases hl : alookup c.cache key with
  | none =>
    refine ⟨?_, fun _ => ?_, fun e he _ => ?_, fun e he _ => ?_⟩
    · simp [LRUCache.get, hl]
    · simp [LRUCache.get, hl]
    · cases he
    · cases he
  | some e =>
    by_cases hexp : e.ttl < now - e.timestamp
    · refine ⟨?_, fun habs => ?_, fun e' he' _ => ?_, fun e' he' hne => ?_⟩
      · constructor
        · intro _; exact Or.inr ⟨e, rfl, hexp⟩
        · intro _; simp [LRUCache.get, hl, CacheEntry.is_expired, gt_iff_lt, hexp]
      · cases habs
      · cases he'
        simp [LRUCache.get, hl, CacheEntry.is_expired, gt_iff_lt, hexp]
      · cases he'
        exact absurd hexp hne
    · refine ⟨?_, fun habs => ?_, fun e' he' hexp' => ?_, fun e' he' _ => ?_⟩
      · constructor
        · intro hnone
          simp [LRUCache.get, hl, CacheEntry.is_expired, gt_iff_lt, hexp,
            CacheEntry.access] at hnone
        · rintro (habs | ⟨e', he', hexp'⟩)
          · cases habs
          · cases he'
            exact absurd hexp' hexp
      · cases habs
      · cases he'
        exact absurd hexp' hexp
      · cases he'
        constructor
        · simp [LRUCache.get, hl, CacheEntry.is_expired, gt_iff_lt, hexp, CacheEntry.access]
        · simp [LRUCache.get, hl, CacheEntry.is_expired, gt_iff_lt, hexp, CacheEntry.access]

/-- A cache holding an expired entry (`"old"`, age 100 > ttl 5) and a
live one (`"live"`, age 100 ≤ ttl 300), read at time 100. -/
def cacheWithOldLive : LRUCache ℕ :=
  { max_size := 10, default_ttl := 300,
    cache := [("old", CacheEntry.init 1 5 0), ("live", CacheEntry.init 2 300 0)],
    hits := 0, misses := 0, evictions := 0, expired := 0 }

/-- Witness for C4: reading the expired key misses, deletes it and bumps
`expired`/`misses`; reading the live key hits and returns its value. -/
theorem lruCache_get_spec_witness :
    (alookup cacheWithOldLive.cache "old" = some (CacheEntry.init 1 5 0)
      ∧ (CacheEntry.init (α := ℕ) 1 5 0).ttl < 100 - (CacheEntry.init (α := ℕ) 1 5 0).timestamp
      ∧ alookup cacheWithOldLive.cache "live" = some (CacheEntry.init 2 300 0)
      ∧ ¬ (CacheEntry.init (α := ℕ) 2 300 0).ttl < 100 - (CacheEntry.init (α := ℕ) 2 300 0).timestamp)
    ∧ (cacheWithOldLive.get "old" 100).2
        = { cacheWithOldLive with cache := aerase cacheWithOldLive.cache "old",
                                  expired := 1, misses := 1 }
    ∧ (cacheWithOldLive.get "live" 100).1 = some 2 := by
  refine ⟨⟨by decide, by norm_num [CacheEntry.init], by decide,
      by norm_num [CacheEntry.init]⟩, ?_, ?_⟩
  · exact (lruCache_get_spec cacheWithOldLive "old" 100).2.2.1
      (CacheEntry.init 1 5 0) (by decide) (by norm_num [CacheEntry.init])
  · exact ((lruCache_get_spec cacheWithOldLive "live" 100).2.2.2
      (CacheEntry.init 2 300 0) (by decide) (by norm_num [CacheEntry.init])).1

/-- C10: a `set` with an explicit `ttl` of `0` stores the entry with
`default_ttl` (the falsy `0` is replaced by `ttl or self.default_ttl`),
so an immediately following `get` is a hit returning the value. -/
theorem lruCache_set_ttl_zero {α : Type} (c : LRUCache α) (key : String) (value : α)
    (now : ℚ) (hms : 1 ≤ c.max_size) (httl : 0 ≤ c.default_ttl) :
    alookup ((c.set key value (some 0) now).1).cache key
        = some (CacheEntry.init value c.default_ttl now)
    ∧ (((c.set key value (some 0) now).1).get key now).1 = some value := by
  have hok : (evictLoop c.max_size (aerase c.cache key) c.evictions).2.2 = true := by
    by_cases h : (evictLoop c.max_size (aerase c.cache key) c.evictions).2.2 = true
    · exact h
    · have := evictLoop_err c.max_size (aerase c.cache key) c.evictions
        (Bool.eq_false_iff.mpr h ▸ rfl)
      omega
  have hdef : pyOrDefault (some 0) c.default_ttl = c.default_ttl := by
    simp [pyOrDefault]
  have hkey : alookup ((c.set key value (some 0) now).1).cache key
      = some (CacheEntry.init value c.default_ttl now) := by
    simp only [LRUCache.set, if_pos hok, hdef]
    rw [alookup_append_of_none _ _ _
      (evictLoop_no_key _ _ _ _ (alookup_aerase_self c.cache key))]
    simp [alookup]
  refine ⟨hkey, ?_⟩
  have hnexp : ¬ (CacheEntry.init value c.default_ttl now).ttl
      < now - (CacheEntry.init value c.default_ttl now).timestamp := by
    simp [CacheEntry.init]
    linarith
  exact (((lruCache_get_spec ((c.set key value (some 0) now).1) key now).2.2.2
    (CacheEntry.init value c.default_ttl now) hkey hnexp)).1

/-- Witness for C10 on a fresh cache: `set k v ttl=0` then `get k`
returns the value, with the entry carrying the default TTL. -/
theorem lruCache_set_ttl_zero_witness :
    (1 ≤ (LRUCache.init ℕ 10 300).max_size ∧ (0:ℚ) ≤ (LRUCache.init ℕ 10 300).default_ttl)
    ∧ alookup (((LRUCache.init ℕ 10 300).set "k" 9 (some 0) 50).1).cache "k"
        = some (CacheEntry.init 9 (LRUCache.init ℕ 10 300).default_ttl 50)
    ∧ ((((LRUCache.init ℕ 10 300).set "k" 9 (some 0) 50).1).get "k" 50).1 = some 9 := by
  refine ⟨⟨by decide, by decide⟩, ?_, ?_⟩
  · exact (lruCache_set_ttl_zero (LRUCache.init ℕ 10 300) "k" 9 50 (by decide) (by decide)).1
  · exact (lruCache_set_ttl_zero (LRUCache.init ℕ 10 300) "k" 9 50 (by decide) (by decide)).2

/-! ## Rate limiting (`src/ratelimit.py`) -/

/-- `TokenBucket` state (`src/ratelimit.py:18`): refill rate
(tokens/sec), capacity, current (real-valued) token count, and the last
refill timestamp. -/
structure TokenBucket where
  rate : ℚ
  capacity : ℚ
  tokens : ℚ
  last_update : ℚ
  deriving Repr, DecidableEq

/-- `TokenBucket(rate, capacity)` constructed at time `now`: starts full. -/
def TokenBucket.init (rate capacity now : ℚ) : TokenBucket :=
  { rate := rate, capacity := capacity, tokens := capacity, last_update := now }

/-- `TokenBucket._refill` (`src/ratelimit.py:53`):
`tokens = min(capacity, tokens + elapsed * rate)`, lazily at access time. -/
def TokenBucket.refill (b : TokenBucket) (now : ℚ) : TokenBucket :=
  { b with tokens := min b.capacity (b.tokens + (now - b.last_update) * b.rate),
           last_update := now }

/-- `TokenBucket.consume` (`src/ratelimit.py:35`): refill, then decrement
iff enough tokens are present. -/
def TokenBucket.consume (b : TokenBucket) (n : ℚ) (now : ℚ) : Bool × TokenBucket :=
  let b1 := b.refill now
  if n ≤ b1.tokens then (true, { b1 with tokens := b1.tokens - n })
  else (false, b1)

/-- `n` successive `consume(1)` calls at the same instant `now`,
conjoining all the success flags. -/
def TokenBucket.consumeIter (b : TokenBucket) (now : ℚ) : ℕ → Bool × TokenBucket
  | 0 => (true, b)
  | n + 1 =>
    let r := b.consume 1 now
    let r' := TokenBucket.consumeIter r.2 now n
    (r.1 && r'.1, r'.2)

/-- `SlidingWindow` state (`src/ratelimit.py:83`): window duration,
request cap, and the deque of admitted-request timestamps. -/
structure SlidingWindow where
  window_size : ℚ
  max_requests : ℕ
  requests : List ℚ
  deriving Repr, DecidableEq

/-- `SlidingWindow(window_size, max_requests)` with an empty deque. -/
def SlidingWindow.init (window_size : ℚ) (max_requests : ℕ) : SlidingWindow :=
  { window_size := window_size, max_requests := max_requests, requests := [] }

/-- The `while self.requests and self.requests[0] <= now - self.window_size:
popleft()` pruning loop (`src/ratelimit.py:110`): drop from the front
while the head timestamp is at least `window_size` old. -/
def pruneFront (window_size now : ℚ) (l : List ℚ) : List ℚ :=
  l.dropWhile (fun ts => decide (ts ≤ now - window_size))

/-- `SlidingWindow.allow_request` (`src/ratelimit.py:99`): prune, then
admit (appending `now`) iff the remaining count is below `max_requests`. -/
def SlidingWindow.allow_request (s : SlidingWindow) (now : ℚ) : Bool × SlidingWindow :=
  let reqs := pruneFront s.window_size now s.requests
  if s.max_requests ≤ reqs.length then (false, { s with requests := reqs })
  else (true, { s with requests := reqs ++ [now] })

/-- `SlidingWindow.get_remaining` (`src/ratelimit.py:121`):
`max(0, max_requests - len(requests))` after pruning. -/
def SlidingWindow.get_remaining (s : SlidingWindow) (now : ℚ) : ℤ × SlidingWindow :=
  let reqs := pruneFront s.window_size now s.requests
  (max 0 ((s.max_requests : ℤ) - reqs.length), { s with requests := reqs })

/-- The `self.limiter` field of `RateLimiter` (`src/ratelimit.py:150`):
token bucket or sliding window, chosen by the `algorithm` string. -/
inductive LimiterImpl where
  | bucket (b : TokenBucket)
  | window (w : SlidingWindow)
  deriving Repr, DecidableEq

/-- `RateLimiter` state (`src/ratelimit.py:133`). -/
structure RateLimiter where
  max_requests : ℕ
  window : ℚ
  algorithm : String
  limiter : LimiterImpl
  allowed : ℕ
  rejected : ℕ
  total : ℕ
  deriving Repr, DecidableEq

/-- `RateLimiter(max_requests, window, algorithm)` (`src/ratelimit.py:136`):
`token_bucket` gets a bucket with `rate = max_requests / window` and
capacity `max_requests`; anything else gets a sliding window. -/
def RateLimiter.init (max_requests : ℕ) (window : ℚ) (algorithm : String) (now : ℚ) :
    RateLimiter :=
  { max_requests := max_requests, window := window, algorithm := algorithm,
    limiter :=
      if algorithm = "token_bucket" then
        .bucket (TokenBucket.init ((max_requests : ℚ) / window) (max_requests : ℚ) now)
      else .window (SlidingWindow.init window max_requests),
    allowed := 0, rejected := 0, total := 0 }

/-- `RateLimiter.check` (`src/ratelimit.py:163`): bump `total`, delegate
to `consume()` or `allow_request()`, then bump `allowed` or `rejected`. -/
def RateLimiter.check (r : RateLimiter) (now : ℚ) : Bool × RateLimiter :=
  let res : Bool × LimiterImpl :=
    match r.limiter with
    | .bucket b => let rb := b.consume 1 now; (rb.1, .bucket rb.2)
    | .window w => let rw := w.allow_request now; (rw.1, .window rw.2)
  if res.1 then
    (true, { r with limiter := res.2, total := r.total + 1, allowed := r.allowed + 1 })
  else
    (false, { r with limiter := res.2, total := r.total + 1, rejected := r.rejected + 1 })

/-- A per-route rate-limit override: the `custom_config` dict with its
optional `max` / `window` keys (`config.get('max', ...)`,
`config.get('window', ...)` in `src/ratelimit.py:278`). -/
structure RLConfig where
  max : Option ℕ
  window : Option ℚ
  deriving Repr, DecidableEq

/-- `RateLimitManager` state (`src/ratelimit.py:197`): per-path limiter
table, per-IP limiter table, and the optional global limiter (present
iff enabled, with a tenfold request budget). -/
structure RateLimitManager where
  enabled : Bool
  default_max_requests : ℕ
  default_window : ℚ
  limiters : List (String × RateLimiter)
  ip_limiters : List (String × RateLimiter)
  global_limiter : Option RateLimiter
  deriving Repr, DecidableEq

/-- `RateLimitManager(enabled, default_max_requests, default_window)`
constructed at time `now`. -/
def RateLimitManager.init (enabled : Bool) (default_max_requests : ℕ)
    (default_window : ℚ) (now : ℚ) : RateLimitManager :=
  { enabled := enabled, default_max_requests := default_max_requests,
    default_window := default_window, limiters := [], ip_limiters := [],
    global_limiter :=
      if enabled then
        some (RateLimiter.init (default_max_requests * 10) default_window
          "sliding_window" now)
      else none }

/-- `RateLimitManager._check_ip_limit` (`src/ratelimit.py:263`): create
the per-IP limiter with the default settings on first sighting, then
run its `check()`. -/
def RateLimitManager.check_ip_limit (m : RateLimitManager) (client_ip : String)
    (now : ℚ) : Bool × RateLimitManager :=
  let rl := (alookup m.ip_limiters client_ip).getD
    (RateLimiter.init m.default_max_requests m.default_window "sliding_window" now)
  let res := rl.check now
  (res.1, { m with ip_limiters := astore m.ip_limiters client_ip res.2 })

/-- `RateLimitManager._check_path_limit` (`src/ratelimit.py:274`): create
the per-path limiter from the override's `max`/`window` (falling back to
the defaults) on first use, then run its `check()`. -/
def RateLimitManager.check_path_limit (m : RateLimitManager) (path : String)
    (config : RLConfig) (now : ℚ) : Bool × RateLimitManager :=
  let rl := (alookup m.limiters path).getD
    (RateLimiter.init (config.max.getD m.default_max_requests)
      (config.window.getD m.default_window) "sliding_window" now)
  let res := rl.check now
  (res.1, { m with limiters := astore m.limiters path res.2 })

/-- `RateLimitManager.check_request` (`src/ratelimit.py:229`): global
limiter first, then the per-IP limiter, then — only when a custom config
is present — the per-path limiter, short-circuiting on the first
rejection. -/
def RateLimitManager.check_request (m : RateLimitManager) (path client_ip : String)
    (custom_config : Option RLConfig) (now : ℚ) : Bool × RateLimitManager :=
  if !m.enabled then (true, m)
  else
    let globalRes : Bool × RateLimitManager :=
      match m.global_limiter with
      | some g => let r := g.check now; (r.1, { m with global_limiter := some r.2 })
      | none => (true, m)
    if !globalRes.1 then (false, globalRes.2)
    else
      let ipRes := globalRes.2.check_ip_limit client_ip now
      if !ipRes.1 then (false, ipRes.2)
      else
        match custom_config with
        | some cfg => ipRes.2.check_path_limit path cfg now
        | none => (true, ipRes.2)

/-! ### Token bucket lemmas -/

theorem consume_one_at_last (b : TokenBucket) (now : ℚ) (h1 : b.last_update = now)
    (h2 : b.tokens ≤ b.capacity) (h3 : (1:ℚ) ≤ b.tokens) :
    b.consume 1 now = (true, { b with tokens := b.tokens - 1, last_update := now }) := by
  simp only [TokenBucket.consume, TokenBucket.refill, h1]
  rw [sub_self, zero_mul, add_zero, min_eq_right h2]
  simp only [if_pos h3]

theorem consume_one_at_last_fail (b : TokenBucket) (now : ℚ) (h1 : b.last_update = now)
    (h2 : b.tokens ≤ b.capacity) (h3 : b.tokens < 1) :
    b.consume 1 now = (false, { b with tokens := b.tokens, last_update := now }) := by
  simp only [TokenBucket.consume, TokenBucket.refill, h1]
  rw [sub_self, zero_mul, add_zero, min_eq_right h2]
  simp only [if_neg (not_le.mpr h3)]

theorem consumeIter_from_full (k : ℕ) : ∀ (b : TokenBucket) (now : ℚ),
    b.last_update = now → b.tokens ≤ b.capacity → (k : ℚ) ≤ b.tokens →
    TokenBucket.consumeIter b now k
      = (true, { b with tokens := b.tokens - k, last_update := now }) := by
  induction k with
  | zero =>
    intro b now h1 h2 h3
    simp only [TokenBucket.consumeIter, Nat.cast_zero, sub_zero, ← h1]
  | succ k ih =>
    intro b now h1 h2 h3
    have hk1 : (1:ℚ) ≤ b.tokens := by
      push_cast at h3
      have : (0:ℚ) ≤ (k:ℚ) := Nat.cast_nonneg k
      linarith
    have hc := consume_one_at_last b now h1 h2 hk1
    have hrec := ih { b with tokens := b.tokens - 1, last_update := now } now rfl
      (by simpa using sub_le_self b.tokens (by norm_num : (0:ℚ) ≤ 1) |>.trans h2)
      (by push_cast at h3 ⊢; simpa using by linarith)
    simp only [TokenBucket.consumeIter, hc, hrec, Bool.and_self]
    have : b.tokens - 1 - (k:ℚ) = b.tokens - ((k:ℕ) + 1 : ℕ) := by push_cast; ring
    simp [this]

/-- C5: the token bucket keeps `tokens ∈ [0, capacity]` across `consume`
under monotone time and nonnegative rate/demand; lazy refill computes
`min(capacity, tokens + elapsed*rate)`; and from a full bucket of
capacity `C ≥ 1`, `C` immediate `consume(1)` calls all succeed and drain
it, the `(C+1)`-th immediate call fails leaving the count unchanged, and
after `1/rate` seconds exactly one more token is available (one consume
succeeds, the next immediate one fails). -/
theorem tokenBucket_spec :
    (∀ (b : TokenBucket) (n now : ℚ), 0 ≤ b.tokens → b.tokens ≤ b.capacity →
      b.last_update ≤ now → 0 ≤ b.rate → 0 ≤ n →
        0 ≤ (b.consume n now).2.tokens ∧ (b.consume n now).2.tokens ≤ b.capacity)
    ∧ (∀ (b : TokenBucket) (now : ℚ),
        (b.refill now).tokens = min b.capacity (b.tokens + (now - b.last_update) * b.rate))
    ∧ (∀ (C : ℕ) (r t : ℚ), 1 ≤ C → 0 < r →
        (TokenBucket.consumeIter (TokenBucket.init r C t) t C).1 = true
        ∧ (TokenBucket.consumeIter (TokenBucket.init r C t) t C).2.tokens = 0
        ∧ (((TokenBucket.consumeIter (TokenBucket.init r C t) t C).2).consume 1 t).1 = false
        ∧ (((TokenBucket.consumeIter (TokenBucket.init r C t) t C).2).consume 1 t).2.tokens = 0
        ∧ (((TokenBucket.consumeIter (TokenBucket.init r C t) t C).2).consume 1 (t + 1/r)).1
            = true
        ∧ ((((TokenBucket.consumeIter (TokenBucket.init r C t) t C).2).consume 1
            (t + 1/r)).2).tokens = 0
        ∧ (((((TokenBucket.consumeIter (TokenBucket.init r C t) t C).2).consume 1
            (t + 1/r)).2).consume 1 (t + 1/r)).1 = false) := by
  refine ⟨?_, ?_, ?_⟩
  · intro b n now h0 hc hl hr hn
    simp only [TokenBucket.consume, TokenBucket.refill]
    have hprod : 0 ≤ (now - b.last_update) * b.rate :=
      mul_nonneg (sub_nonneg.mpr hl) hr
    have hx0 : 0 ≤ min b.capacity (b.tokens + (now - b.last_update) * b.rate) :=
      le_min (h0.trans hc) (by linarith)
    have hxc : min b.capacity (b.tokens + (now - b.last_update) * b.rate) ≤ b.capacity :=
      min_le_left _ _
    by_cases hok : n ≤ min b.capacity (b.tokens + (now - b.last_update) * b.rate)
    · simp only [if_pos hok]
      constructor
      · simpa using sub_nonneg.mpr hok
      · show min b.capacity (b.tokens + (now - b.last_update) * b.rate) - n ≤ b.capacity
        linarith
    · simp only [if_neg hok]
      exact ⟨hx0, hxc⟩
  · intro b now
    rfl
  · intro C r t hC hr
    have hC' : (1:ℚ) ≤ (C:ℚ) := by exact_mod_cast hC
    have hC0 : (0:ℚ) ≤ (C:ℚ) := by positivity
    have hIter := consumeIter_from_full C (TokenBucket.init r C t) t rfl
      (le_refl _) (le_refl _)
    have h2 : (TokenBucket.consumeIter (TokenBucket.init r C t) t C).2
        = ⟨r, (C:ℚ), 0, t⟩ := by
      rw [hIter]
      simp [TokenBucket.init]
    have h3 : TokenBucket.consume ⟨r, (C:ℚ), 0, t⟩ 1 t = (false, ⟨r, (C:ℚ), 0, t⟩) := by
      have := consume_one_at_last_fail ⟨r, (C:ℚ), 0, t⟩ t rfl hC0 (by norm_num)
      simpa using this
    have h4 : TokenBucket.consume ⟨r, (C:ℚ), 0, t⟩ 1 (t + 1/r)
        = (true, ⟨r, (C:ℚ), 0, t + 1/r⟩) := by
      simp only [TokenBucket.consume, TokenBucket.refill]
      have he : (0:ℚ) + (t + 1 / r - t) * r = 1 := by
        field_simp
        ring
      simp only [he]
      rw [min_eq_right hC']
      simp
    have h5 : TokenBucket.consume ⟨r, (C:ℚ), 0, t + 1/r⟩ 1 (t + 1/r)
        = (false, ⟨r, (C:ℚ), 0, t + 1/r⟩) := by
      have := consume_one_at_last_fail ⟨r, (C:ℚ), 0, t + 1/r⟩ (t + 1/r) rfl hC0 (by norm_num)
      simpa using this
    refine ⟨by rw [hIter], by rw [h2], ?_, ?_, ?_, ?_, ?_⟩
    · rw [h2, h3]
    · rw [h2, h3]
    · rw [h2, h4]
    · rw [h2, h4]
    · rw [h2, h4, h5]

/-- Witness for C5 at a fully concrete bucket: capacity 3, rate 2,
start at time 0. -/
theorem tokenBucket_spec_witness :
    ((0:ℚ) ≤ (TokenBucket.init 2 3 0).tokens
      ∧ (TokenBucket.init 2 3 0).tokens ≤ (TokenBucket.init 2 3 0).capacity
      ∧ (TokenBucket.init 2 3 0).last_update ≤ 1 ∧ (0:ℚ) ≤ (TokenBucket.init 2 3 0).rate
      ∧ (0:ℚ) ≤ 1 ∧ 1 ≤ 3 ∧ (0:ℚ) < 2)
    ∧ (0 ≤ ((TokenBucket.init 2 3 0).consume 1 1).2.tokens
      ∧ ((TokenBucket.init 2 3 0).consume 1 1).2.tokens ≤ (TokenBucket.init 2 3 0).capacity)
    ∧ (TokenBucket.consumeIter (TokenBucket.init 2 3 0) 0 3).1 = true
    ∧ (TokenBucket.consumeIter (TokenBucket.init 2 3 0) 0 3).2.tokens = 0
    ∧ (((TokenBucket.consumeIter (TokenBucket.init 2 3 0) 0 3).2).consume 1 0).1 = false
    ∧ (((TokenBucket.consumeIter (TokenBucket.init 2 3 0) 0 3).2).consume 1 (0 + 1/2)).1
        = true := by
  have hmain := tokenBucket_spec
  refine ⟨⟨by norm_num [TokenBucket.init], by norm_num [TokenBucket.init],
    by norm_num [TokenBucket.init], by norm_num [TokenBucket.init],
    by norm_num, by norm_num, by norm_num⟩, ?_, ?_, ?_, ?_, ?_⟩
  · exact hmain.1 (TokenBucket.init 2 3 0) 1 1 (by norm_num [TokenBucket.init])
      (by norm_num [TokenBucket.init]) (by norm_num [TokenBucket.init])
      (by norm_num [TokenBucket.init]) (by norm_num)
  · exact (hmain.2.2 3 2 0 (by norm_num) (by norm_num)).1
  · exact (hmain.2.2 3 2 0 (by norm_num) (by norm_num)).2.1
  · exact (hmain.2.2 3 2 0 (by norm_num) (by norm_num)).2.2.1
  · exact (hmain.2.2 3 2 0 (by norm_num) (by norm_num)).2.2.2.2.1

/-! ### Sliding window lemmas -/

/-- A sequence of `allow_request` calls at the given times, collecting
the admission decisions. -/
def SlidingWindow.runAllows (s : SlidingWindow) : List ℚ → List Bool × SlidingWindow
  | [] => ([], s)
  | t :: ts =>
    let r := s.allow_request t
    let rest := SlidingWindow.runAllows r.2 ts
    (r.1 :: rest.1, rest.2)

/-- C6: `allow_request` admits exactly when the pruned count is below
`max_requests`, appending `now` on admission and leaving only the pruned
timestamps on rejection; the pruned-away prefix consists precisely of
timestamps at least `window_size` old.  Consequently with window 60 and
limit 5, six requests within one second admit exactly the first five and
reject the sixth, and 61 seconds after the first request all five slots
are free again. -/
theorem slidingWindow_spec :
    (∀ (s : SlidingWindow) (now : ℚ),
      ((s.allow_request now).1 = true ↔
        (pruneFront s.window_size now s.requests).length < s.max_requests)
      ∧ ((s.allow_request now).1 = true →
          (s.allow_request now).2.requests
            = pruneFront s.window_size now s.requests ++ [now])
      ∧ ((s.allow_request now).1 = false →
          (s.allow_request now).2.requests = pruneFront s.window_size now s.requests)
      ∧ (s.requests.takeWhile (fun ts => decide (ts ≤ now - s.window_size))
            ++ pruneFront s.window_size now s.requests = s.requests)
      ∧ (∀ ts ∈ s.requests.takeWhile (fun ts => decide (ts ≤ now - s.window_size)),
          ts ≤ now - s.window_size))
    ∧ (∀ t1 t2 t3 t4 t5 t6 : ℚ, t1 ≤ t2 → t2 ≤ t3 → t3 ≤ t4 → t4 ≤ t5 → t5 ≤ t6 →
        t6 ≤ t1 + 1 →
        (SlidingWindow.init 60 5).runAllows [t1, t2, t3, t4, t5, t6]
          = ([true, true, true, true, true, false], ⟨60, 5, [t1, t2, t3, t4, t5]⟩)
        ∧ (SlidingWindow.get_remaining ⟨60, 5, [t1, t2, t3, t4, t5]⟩ (t1 + 61)).1 = 5
        ∧ (SlidingWindow.get_remaining ⟨60, 5, [t1, t2, t3, t4, t5]⟩ (t1 + 61)).2.requests
            = []) := by
  constructor
  · intro s now
    refine ⟨?_, ?_, ?_, ?_, ?_⟩
    · constructor
      · intro h
        by_contra hlen
        simp only [SlidingWindow.allow_request, if_pos (not_lt.mp hlen)] at h
        exact Bool.noConfusion h
      · intro hlen
        simp only [SlidingWindow.allow_request, if_neg (not_le.mpr hlen)]
    · intro h
      by_cases hlen : s.max_requests ≤ (pruneFront s.window_size now s.requests).length
      · simp only [SlidingWindow.allow_request, if_pos hlen] at h
        exact Bool.noConfusion h
      · simp only [SlidingWindow.allow_request, if_neg hlen]
    · intro h
      by_cases hlen : s.max_requests ≤ (pruneFront s.window_size now s.requests).length
      · simp only [SlidingWindow.allow_request, if_pos hlen]
      · simp only [SlidingWindow.allow_request, if_neg hlen] at h
        exact Bool.noConfusion h
    · simp only [pruneFront]
      exact List.takeWhile_append_dropWhile (fun ts => decide (ts ≤ now - s.window_size))
        s.requests
    · intro ts hts
      simpa using List.mem_takeWhile_imp hts
  · intro t1 t2 t3 t4 t5 t6 h12 h23 h34 h45 h56 h61
    have hp2 : decide (t1 ≤ t2 - 60) = false := decide_eq_false (by linarith)
    have hp3 : decide (t1 ≤ t3 - 60) = false := decide_eq_false (by linarith)
    have hp4 : decide (t1 ≤ t4 - 60) = false := decide_eq_false (by linarith)
    have hp5 : decide (t1 ≤ t5 - 60) = false := decide_eq_false (by linarith)
    have hp6 : decide (t1 ≤ t6 - 60) = false := decide_eq_false (by linarith)
    have hq1 : decide (t1 ≤ t1 + 61 - 60) = true := decide_eq_true (by linarith)
    have hq2 : decide (t2 ≤ t1 + 61 - 60) = true := decide_eq_true (by linarith)
    have hq3 : decide (t3 ≤ t1 + 61 - 60) = true := decide_eq_true (by linarith)
    have hq4 : decide (t4 ≤ t1 + 61 - 60) = true := decide_eq_true (by linarith)
    have hq5 : decide (t5 ≤ t1 + 61 - 60) = true := decide_eq_true (by linarith)
    refine ⟨?_, ?_, ?_⟩
    · simp [SlidingWindow.runAllows, SlidingWindow.allow_request, SlidingWindow.init,
        pruneFront, List.dropWhile_cons, hp2, hp3, hp4, hp5, hp6]
    · simp [SlidingWindow.get_remaining, pruneFront, List.dropWhile_cons,
        hq1, hq2, hq3, hq4, hq5]
    · simp [SlidingWindow.get_remaining, pruneFront, List.dropWhile_cons,
        hq1, hq2, hq3, hq4, hq5]

/-- Witness for C6 with all six requests at time 0: five admitted, the
sixth rejected, and at time 61 the window is empty with 5 slots free. -/
theorem slidingWindow_spec_witness :
    ((SlidingWindow.init 60 5).allow_request 0).1 = true
    ∧ (SlidingWindow.init 60 5).runAllows [0, 0, 0, 0, 0, 0]
        = ([true, true, true, true, true, false], ⟨60, 5, [0, 0, 0, 0, 0]⟩)
    ∧ (SlidingWindow.get_remaining ⟨60, 5, [0, 0, 0, 0, 0]⟩ (0 + 61)).1 = 5 := by
  refine ⟨?_, ?_, ?_⟩
  · exact ((slidingWindow_spec.1 (SlidingWindow.init 60 5) 0).1).mpr
      (by norm_num [SlidingWindow.init, pruneFront])
  · exact (slidingWindow_spec.2 0 0 0 0 0 0 (by norm_num) (by norm_num) (by norm_num)
      (by norm_num) (by norm_num) (by norm_num)).1
  · exact (slidingWindow_spec.2 0 0 0 0 0 0 (by norm_num) (by norm_num) (by norm_num)
      (by norm_num) (by norm_num) (by norm_num)).2.1

/-! ### Rate-limit manager lemmas -/

theorem alookup_astore_self {β : Type} (l : List (String × β)) (key : String) (v : β) :
    alookup (astore l key v) key = some v := by
  induction l with
  | nil => simp [astore, alookup]
  | cons x rest ih =>
    obtain ⟨k, w⟩ := x
    by_cases hk : k = key
    · simp [astore, hk, alookup]
    · simp [astore, hk, alookup, ih]

/-- `RateLimiter.check` never changes the configured `max_requests`,
`window` or `algorithm`. -/
theorem check_preserves_params (r : RateLimiter) (now : ℚ) :
    (r.check now).2.max_requests = r.max_requests
    ∧ (r.check now).2.window = r.window
    ∧ (r.check now).2.algorithm = r.algorithm := by
  cases hr : r.limiter <;>
    · simp only [RateLimiter.check, hr]
      split <;> exact ⟨rfl, rfl, rfl⟩

/-- The manager state after the global limiter's `check()` has run. -/
def afterGlobal (m : RateLimitManager) (g : RateLimiter) (now : ℚ) : RateLimitManager :=
  { m with global_limiter := some (g.check now).2 }

/-- C7: with the manager enabled, `check_request` consults the global
limiter first (rejection short-circuits with the per-IP and per-path
tables untouched), then the per-IP limiter (rejection short-circuits
with the per-path table untouched), then the per-path limiter only when
a custom config is present; it returns true iff every applicable scope
admits.  Fresh per-IP limiters are created with the default max/window
and fresh per-path limiters with the override's own max/window. -/
theorem rateLimitManager_check_request_spec (m : RateLimitManager) (path ip : String)
    (cfg : Option RLConfig) (now : ℚ) (g : RateLimiter)
    (hen : m.enabled = true) (hg : m.global_limiter = some g) :
    ((g.check now).1 = false →
      m.check_request path ip cfg now = (false, afterGlobal m g now))
    ∧ ((g.check now).1 = true →
        ((((afterGlobal m g now).check_ip_limit ip now).1 = false →
            m.check_request path ip cfg now
              = (false, ((afterGlobal m g now).check_ip_limit ip now).2)
            ∧ ((afterGlobal m g now).check_ip_limit ip now).2.limiters = m.limiters)
        ∧ (((afterGlobal m g now).check_ip_limit ip now).1 = true → cfg = none →
            m.check_request path ip cfg now
              = (true, ((afterGlobal m g now).check_ip_limit ip now).2))
        ∧ (∀ c, ((afterGlobal m g now).check_ip_limit ip now).1 = true → cfg = some c →
            m.check_request path ip cfg now
              = ((afterGlobal m g now).check_ip_limit ip now).2.check_path_limit
                  path c now)))
    ∧ (∀ (m' : RateLimitManager), alookup m'.ip_limiters ip = none →
        ∃ rl, alookup ((m'.check_ip_limit ip now).2).ip_limiters ip = some rl
          ∧ rl.max_requests = m'.default_max_requests ∧ rl.window = m'.default_window
          ∧ rl.algorithm = "sliding_window")
    ∧ (∀ (m' : RateLimitManager) (c : RLConfig), alookup m'.limiters path = none →
        ∃ rl, alookup ((m'.check_path_limit path c now).2).limiters path = some rl
          ∧ rl.max_requests = c.max.getD m'.default_max_requests
          ∧ rl.window = c.window.getD m'.default_window) := by
  obtain ⟨en, dmax, dwin, ls, ips, gl⟩ := m
  replace hen : en = true := hen
  replace hg : gl = some g := hg
  subst hen
  subst hg
  refine ⟨?_, ?_, ?_, ?_⟩
  · intro hfalse
    simp [RateLimitManager.check_request, hfalse, afterGlobal]
  · intro htrue
    refine ⟨fun hip => ⟨?_, rfl⟩, fun hip hnone => ?_, fun c hip hsome => ?_⟩
    · simp only [afterGlobal] at hip
      simp [RateLimitManager.check_request, htrue, afterGlobal, hip]
    · simp only [afterGlobal] at hip
      simp [RateLimitManager.check_request, htrue, afterGlobal, hip, hnone]
    · simp only [afterGlobal] at hip
      simp [RateLimitManager.check_request, htrue, afterGlobal, hip, hsome]
  · intro m' habs
    refine ⟨((RateLimiter.init m'.default_max_requests m'.default_window
      "sliding_window" now).check now).2, ?_, ?_, ?_, ?_⟩
    · simp only [RateLimitManager.check_ip_limit, habs, Option.getD_none]
      exact alookup_astore_self _ _ _
    · exact (check_preserves_params _ _).1
    · exact (check_preserves_params _ _).2.1
    · exact (check_preserves_params _ _).2.2
  · intro m' c habs
    refine ⟨((RateLimiter.init (c.max.getD m'.default_max_requests)
      (c.window.getD m'.default_window) "sliding_window" now).check now).2, ?_, ?_, ?_⟩
    · simp only [RateLimitManager.check_path_limit, habs, Option.getD_none]
      exact alookup_astore_self _ _ _
    · exact (check_preserves_params _ _).1
    · exact (check_preserves_params _ _).2.1

/-- Enabled manager with defaults max=1, window=60, built at time 0. -/
def mW : RateLimitManager := RateLimitManager.init true 1 60 0

/-- The global limiter `mW` starts with (tenfold budget). -/
def gW : RateLimiter := RateLimiter.init 10 60 "sliding_window" 0

/-- Witness for C7: on the concrete enabled manager, the admitted
request with a custom config flows global → IP → path, and fresh IP and
path limiters carry the default resp. override settings. -/
theorem rateLimitManager_check_request_witness :
    (mW.enabled = true ∧ mW.global_limiter = some gW ∧ (gW.check 0).1 = true
      ∧ ((afterGlobal mW gW 0).check_ip_limit "9.9.9.9" 0).1 = true
      ∧ alookup mW.ip_limiters "9.9.9.9" = none ∧ alookup mW.limiters "/a" = none)
    ∧ mW.check_request "/a" "9.9.9.9" (some ⟨some 2, some 30⟩) 0
        = ((afterGlobal mW gW 0).check_ip_limit "9.9.9.9" 0).2.check_path_limit
            "/a" ⟨some 2, some 30⟩ 0
    ∧ (∃ rl, alookup ((mW.check_ip_limit "9.9.9.9" 0).2).ip_limiters "9.9.9.9" = some rl
        ∧ rl.max_requests = mW.default_max_requests ∧ rl.window = mW.default_window
        ∧ rl.algorithm = "sliding_window")
    ∧ (∃ rl, alookup ((mW.check_path_limit "/a" ⟨some 2, some 30⟩ 0).2).limiters "/a"
          = some rl
        ∧ rl.max_requests = (some 2).getD mW.default_max_requests
        ∧ rl.window = (some (30:ℚ)).getD mW.default_window) := by
  have h := rateLimitManager_check_request_spec mW "/a" "9.9.9.9"
    (some ⟨some 2, some 30⟩) 0 gW rfl (by decide)
  refine ⟨⟨rfl, by decide, by decide, by decide, rfl, rfl⟩, ?_, ?_, ?_⟩
  · exact (h.2.1 (by decide)).2.2 ⟨some 2, some 30⟩ (by decide) rfl
  · exact h.2.2.1 mW rfl
  · exact h.2.2.2 mW ⟨some 2, some 30⟩ rfl

/-! ## Concurrency control (`src/concurrent_control.py`)

`asyncio.Semaphore` is modelled by its integer counter: `acquire()`
succeeds iff the counter is positive (decrementing it) and `release()`
increments it unconditionally (plain `asyncio.Semaphore` is not
bounded).  Operations are modelled sequentially: each `acquire`/
`release` runs its lock-protected critical sections atomically, and a
waiter that finds the counter at zero times out, since in a sequential
trace no concurrent task can release while it waits (a concurrent
release is the trace `[release, acquire]`).  The deferred
`_update_stats_on_release` task is folded into `release`. -/

structure ConcurrencyManager where
  max_concurrent : ℕ
  queue_timeout : ℚ
  semaphore : ℕ
  current_active : ℕ
  total_processed : ℕ
  total_rejected : ℕ
  total_timeout : ℕ
  queue_len : ℕ
  max_queue_size : ℕ
  deriving Repr, DecidableEq

/-- `ConcurrencyManager(max_concurrent, queue_timeout)`
(`src/concurrent_control.py:20`): semaphore at full capacity, zeroed
stats, empty queue, queue ceiling `max_concurrent * 2`. -/
def ConcurrencyManager.init (max_concurrent : ℕ) (queue_timeout : ℚ) : ConcurrencyManager :=
  { max_concurrent := max_concurrent, queue_timeout := queue_timeout,
    semaphore := max_concurrent, current_active := 0, total_processed := 0,
    total_rejected := 0, total_timeout := 0, queue_len := 0,
    max_queue_size := max_concurrent * 2 }

/-- `ConcurrencyManager.acquire` (`src/concurrent_control.py:44`): reject
outright when the queue ceiling is reached; otherwise take the semaphore
if free (bumping `current_active` and `total_processed`), else time out
(bumping `total_timeout`).  `timeout = timeout or self.queue_timeout`
resolves the wait bound, which cannot change the outcome of a
sequential trace. -/
def ConcurrencyManager.acquire (m : ConcurrencyManager) (timeout : Option ℚ) :
    Bool × ConcurrencyManager :=
  let _resolved := pyOrDefault timeout m.queue_timeout
  if m.max_queue_size ≤ m.queue_len then
    (false, { m with total_rejected := m.total_rejected + 1 })
  else if 0 < m.semaphore then
    (true, { m with semaphore := m.semaphore - 1,
                    current_active := m.current_active + 1,
                    total_processed := m.total_processed + 1 })
  else
    (false, { m with total_timeout := m.total_timeout + 1 })

/-- `ConcurrencyManager.release` (`src/concurrent_control.py:83`): the
semaphore counter is incremented unconditionally, and the stats task
sets `current_active = max(0, current_active - 1)` (ℕ subtraction is
exactly that clamp). -/
def ConcurrencyManager.release (m : ConcurrencyManager) : ConcurrencyManager :=
  { m with semaphore := m.semaphore + 1, current_active := m.current_active - 1 }

/-- `ConcurrencyManager.update_limit` (`src/concurrent_control.py:149`):
raise `ValueError` (flag `false`, state untouched) iff `new_limit ≤ 0`;
otherwise install the new limit, a fresh semaphore at the new capacity,
and queue ceiling `new_limit * 2`. -/
def ConcurrencyManager.update_limit (m : ConcurrencyManager) (new_limit : ℤ) :
    Bool × ConcurrencyManager :=
  if new_limit ≤ 0 then (false, m)
  else (true, { m with max_concurrent := new_limit.toNat,
                       semaphore := new_limit.toNat,
                       max_queue_size := new_limit.toNat * 2 })

/-- One gate operation of a trace. -/
inductive CMOp where
  | acquire (timeout : Option ℚ)
  | release
  deriving Repr, DecidableEq

/-- Apply one operation. -/
def CMstep (m : ConcurrencyManager) : CMOp → ConcurrencyManager
  | .acquire t => (m.acquire t).2
  | .release => m.release

/-- Run a trace of operations. -/
def CMrun (m : ConcurrencyManager) : List CMOp → ConcurrencyManager
  | [] => m
  | op :: rest => CMrun (CMstep m op) rest

/-- All states visited along a trace (including start and end). -/
def statesAlong (m : ConcurrencyManager) : List CMOp → List ConcurrencyManager
  | [] => [m]
  | op :: rest => m :: statesAlong (CMstep m op) rest

/-- A trace is well-formed when every `release` is matched by an earlier
successful `acquire` (the `held` counter stays positive at each
release). -/
def wellFormed (m : ConcurrencyManager) (held : ℕ) : List CMOp → Bool
  | [] => true
  | .acquire t :: rest =>
    wellFormed (m.acquire t).2 (if (m.acquire t).1 then held + 1 else held) rest
  | .release :: rest => decide (0 < held) && wellFormed m.release (held - 1) rest

theorem acquire_cases (m : ConcurrencyManager) (t : Option ℚ) :
    ((m.acquire t).2.max_concurrent = m.max_concurrent)
    ∧ ((m.acquire t).1 = true →
        (m.acquire t).2.current_active = m.current_active + 1
        ∧ (m.acquire t).2.semaphore + 1 = m.semaphore)
    ∧ ((m.acquire t).1 = false →
        (m.acquire t).2.current_active = m.current_active
        ∧ (m.acquire t).2.semaphore = m.semaphore) := by
  simp only [ConcurrencyManager.acquire]
  by_cases h1 : m.max_queue_size ≤ m.queue_len
  · simp [h1]
  · simp only [if_neg h1]
    by_cases h2 : 0 < m.semaphore
    · rw [if_pos h2]
      exact ⟨rfl, fun _ => ⟨rfl, by show m.semaphore - 1 + 1 = m.semaphore; omega⟩,
        fun h => Bool.noConfusion h⟩
    · rw [if_neg h2]
      exact ⟨rfl, fun h => Bool.noConfusion h, fun _ => ⟨rfl, rfl⟩⟩

theorem cm_inv_along (ops : List CMOp) : ∀ (m : ConcurrencyManager) (held : ℕ),
    m.current_active = held → m.semaphore + m.current_active = m.max_concurrent →
    wellFormed m held ops = true →
    ∀ s ∈ statesAlong m ops, s.current_active ≤ s.max_concurrent := by
  induction ops with
  | nil =>
    intro m held h1 h2 _ s hs
    simp only [statesAlong, List.mem_singleton] at hs
    subst hs
    omega
  | cons op rest ih =>
    intro m held h1 h2 hwf s hs
    cases op with
    | acquire t =>
      simp only [statesAlong, CMstep, List.mem_cons] at hs
      simp only [wellFormed] at hwf
      have hA := acquire_cases m t
      rcases hs with rfl | hs'
      · omega
      · by_cases hacq : (m.acquire t).1 = true
        · rw [if_pos hacq] at hwf
          have h3 := hA.2.1 hacq
          exact ih _ (held + 1) (by omega) (by omega) hwf s hs'
        · rw [if_neg hacq] at hwf
          have h3 := hA.2.2 (Bool.not_eq_true _ ▸ hacq)
          exact ih _ held (by omega) (by omega) hwf s hs'
    | release =>
      simp only [statesAlong, CMstep, List.mem_cons] at hs
      simp only [wellFormed, Bool.and_eq_true, decide_eq_true_eq] at hwf
      obtain ⟨hheld, hwf'⟩ := hwf
      rcases hs with rfl | hs'
      · omega
      · have hact : m.release.current_active = m.current_active - 1 := rfl
        have hsem : m.release.semaphore = m.semaphore + 1 := rfl
        have hmax : m.release.max_concurrent = m.max_concurrent := rfl
        exact ih _ (held - 1) (by omega) (by omega) hwf' s hs'

/-- C2 as stated is false: on a gate with `max_concurrent = 1`, the
trace `[release, acquire, acquire]` drives `current_active` to 2,
because the plain semaphore's `release()` mints an extra permit when no
slot is held.  (The spec's own clamp makes `current_active` stay at 0
during the spurious release, but the over-credited semaphore then
admits two acquires.) -/
theorem concurrencyManager_invariant_counterexample :
    (CMrun (ConcurrencyManager.init 1 30) [.release, .acquire none, .acquire none]).max_concurrent
      = 1
    ∧ (CMrun (ConcurrencyManager.init 1 30)
        [.release, .acquire none, .acquire none]).current_active = 2 := by
  constructor <;> rfl

/-- C2 (amended): for every trace in which each `release` is matched by
an earlier successful `acquire`, every state reached satisfies
`current_active ≤ max_concurrent`; and `release` always decrements
`current_active` clamped at a floor of zero. -/
theorem concurrencyManager_invariant (n : ℕ) (qt : ℚ) (ops : List CMOp)
    (hwf : wellFormed (ConcurrencyManager.init n qt) 0 ops = true) :
    (∀ s ∈ statesAlong (ConcurrencyManager.init n qt) ops,
      s.current_active ≤ s.max_concurrent)
    ∧ (∀ (m : ConcurrencyManager),
        ((m.release).current_active : ℤ) = max 0 ((m.current_active : ℤ) - 1)) := by
  constructor
  · exact cm_inv_along ops (ConcurrencyManager.init n qt) 0 rfl
      (by simp [ConcurrencyManager.init]) hwf
  · intro m
    have : m.release.current_active = m.current_active - 1 := rfl
    omega

/-- Witness for C2 (amended) on a well-formed concrete trace. -/
theorem concurrencyManager_invariant_witness :
    wellFormed (ConcurrencyManager.init 2 30) 0
      [.acquire none, .acquire none, .release] = true
    ∧ (∀ s ∈ statesAlong (ConcurrencyManager.init 2 30)
        [.acquire none, .acquire none, .release],
        s.current_active ≤ s.max_concurrent)
    ∧ (((ConcurrencyManager.init 2 30).release.current_active : ℤ)
        = max 0 (((ConcurrencyManager.init 2 30).current_active : ℤ) - 1)) := by
  refine ⟨by decide, ?_, ?_⟩
  · exact (concurrencyManager_invariant 2 30 [.acquire none, .acquire none, .release]
      (by decide)).1
  · exact (concurrencyManager_invariant 2 30 [.acquire none, .acquire none, .release]
      (by decide)).2 (ConcurrencyManager.init 2 30)

/-- C8: `update_limit` fails (raises `ValueError`) iff `new_limit ≤ 0`,
leaving every field untouched in that case; on success it installs the
new limit, a fresh semaphore at the new capacity, and a queue ceiling of
`2 * new_limit`. -/
theorem concurrencyManager_update_limit_spec (m : ConcurrencyManager) (new_limit : ℤ) :
    ((m.update_limit new_limit).1 = false ↔ new_limit ≤ 0)
    ∧ (new_limit ≤ 0 → (m.update_limit new_limit).2 = m)
    ∧ (0 < new_limit →
        (m.update_limit new_limit).2.max_concurrent = new_limit.toNat
        ∧ (m.update_limit new_limit).2.semaphore = new_limit.toNat
        ∧ (m.update_limit new_limit).2.max_queue_size = new_limit.toNat * 2
        ∧ (m.update_limit new_limit).2.current_active = m.current_active
        ∧ (m.update_limit new_limit).2.queue_timeout = m.queue_timeout) := by
  refine ⟨?_, fun h => ?_, fun h => ?_⟩
  · by_cases h : new_limit ≤ 0
    · simp [ConcurrencyManager.update_limit, h]
    · simp [ConcurrencyManager.update_limit, h]
  · simp [ConcurrencyManager.update_limit, h]
  · rw [ConcurrencyManager.update_limit, if_neg (not_le.mpr h)]
    exact ⟨rfl, rfl, rfl, rfl, rfl⟩

/-- Witness for C8: rejected update `-1` leaves the gate unchanged;
accepted update `5` installs capacity 5 and queue ceiling 10. -/
theorem concurrencyManager_update_limit_witness :
    ((-1 : ℤ) ≤ 0 ∧ (0:ℤ) < 5)
    ∧ ((ConcurrencyManager.init 1 30).update_limit (-1)).1 = false
    ∧ ((ConcurrencyManager.init 1 30).update_limit (-1)).2 = ConcurrencyManager.init 1 30
    ∧ ((ConcurrencyManager.init 1 30).update_limit 5).2.semaphore = 5
    ∧ ((ConcurrencyManager.init 1 30).update_limit 5).2.max_queue_size = 10 := by
  refine ⟨⟨by decide, by decide⟩, ?_, ?_, ?_, ?_⟩
  · exact (concurrencyManager_update_limit_spec (ConcurrencyManager.init 1 30) (-1)).1.mpr
      (by decide)
  · exact (concurrencyManager_update_limit_spec (ConcurrencyManager.init 1 30) (-1)).2.1
      (by decide)
  · exact ((concurrencyManager_update_limit_spec (ConcurrencyManager.init 1 30) 5).2.2
      (by decide)).2.1
  · exact ((concurrencyManager_update_limit_spec (ConcurrencyManager.init 1 30) 5).2.2
      (by decide)).2.2.1

/-! ## Pipeline per-request handler (`src/server.py:266` `handle_request`)
and `ConcurrencyManager.execute_with_limit`
(`src/concurrent_control.py:95`)

The handler's external collaborators (router hit, rate-limit verdict,
cache hit, user callback) are oracle inputs; the control skeleton —
not-found and rate-limit early returns, `acquire(timeout=5)` with the
503 branch, the inner `try` whose `finally` releases iff `acquired`,
and the outer `except` converting callback exceptions to a 500 — is
translated from the source. -/

/-- The per-request oracle: outcomes of the handler's collaborators. -/
structure ReqScript where
  route_found : Bool
  ratelimit_ok : Bool
  has_concurrent_manager : Bool
  cache_hit : Bool
  callback : Except String Unit
  deriving Repr

/-- Result of one handled request: HTTP status, final gate state, and
how many admission slots were acquired and released along the way. -/
structure PipelineOutcome where
  status : ℕ
  mgr : ConcurrencyManager
  acquires : ℕ
  releases : ℕ
  deriving Repr

/-- The body of the inner `try` (`src/server.py:355`): a cache hit
returns the cached response; otherwise `process_request` runs and its
exception, if any, propagates. -/
def tryBody (s : ReqScript) : Except String ℕ :=
  if s.cache_hit then .ok 200
  else
    match s.callback with
    | .ok _ => .ok 200
    | .error e => .error e

/-- `handle_request` (`src/server.py:266`): route → rate limit →
`acquire(timeout=5)` → try body / finally release → outer except → 500. -/
def handle_request (m : ConcurrencyManager) (s : ReqScript) : PipelineOutcome :=
  if !s.route_found then ⟨404, m, 0, 0⟩
  else if !s.ratelimit_ok then ⟨429, m, 0, 0⟩
  else if s.has_concurrent_manager then
    let acq := m.acquire (some 5)
    if acq.1 then
      -- the `finally` releases on every exit of the try body,
      -- and the outer `except` then maps an exception to a 500
      let m2 := acq.2.release
      match tryBody s with
      | .ok st => ⟨st, m2, 1, 1⟩
      | .error _ => ⟨500, m2, 1, 1⟩
    else ⟨503, acq.2, 0, 0⟩
  else
    -- `acquired = False`: the try body runs without a slot and the
    -- `finally` releases nothing
    match tryBody s with
    | .ok st => ⟨st, m, 0, 0⟩
    | .error _ => ⟨500, m, 0, 0⟩

/-- `ConcurrencyManager.execute_with_limit`
(`src/concurrent_control.py:95`): acquire (raising on failure), run the
function, release in the `finally` iff acquired. -/
def execute_with_limit {α : Type} (m : ConcurrencyManager) (f : Except String α) :
    Except String α × ConcurrencyManager :=
  let acq := m.acquire none
  if acq.1 then
    match f with
    | .ok a => (.ok a, acq.2.release)
    | .error e => (.error e, acq.2.release)
  else (.error "Failed to acquire concurrency slot", acq.2)

/-- C9: in the per-request handler every successful acquire is matched
by exactly one release on every exit path (cache hit, normal response,
callback exception), so the gate's semaphore and active count return to
their pre-request values; and `execute_with_limit` likewise releases
its slot on both the success and the exception path. -/
theorem pipeline_release_matches_acquire (m : ConcurrencyManager) (s : ReqScript) :
    ((handle_request m s).acquires = (handle_request m s).releases)
    ∧ ((handle_request m s).acquires ≤ 1)
    ∧ ((m.acquire (some 5)).1 = true → s.route_found = true → s.ratelimit_ok = true →
        s.has_concurrent_manager = true →
        (handle_request m s).mgr.semaphore = m.semaphore
        ∧ (handle_request m s).mgr.current_active = m.current_active)
    ∧ (∀ (f : Except String Unit), (m.acquire none).1 = true →
        (execute_with_limit m f).2.semaphore = m.semaphore
        ∧ (execute_with_limit m f).2.current_active = m.current_active) := by
  refine ⟨?_, ?_, fun hacq hr hrl hcm => ?_, fun f hacq => ?_⟩
  · simp only [handle_request]
    split
    · rfl
    · split
      · rfl
      · split
        · split
          · split <;> rfl
          · rfl
        · split <;> rfl
  · simp only [handle_request]
    split
    · exact Nat.zero_le 1
    · split
      · exact Nat.zero_le 1
      · split
        · split
          · split <;> exact le_refl 1
          · exact Nat.zero_le 1
        · split <;> exact Nat.zero_le 1
  · have hA := (acquire_cases m (some 5)).2.1 hacq
    have hrel1 : (m.acquire (some 5)).2.release.semaphore = m.semaphore := by
      show (m.acquire (some 5)).2.semaphore + 1 = m.semaphore
      omega
    have hrel2 : (m.acquire (some 5)).2.release.current_active = m.current_active := by
      show (m.acquire (some 5)).2.current_active - 1 = m.current_active
      omega
    simp only [handle_request, hr, hrl, hcm, Bool.not_true, Bool.false_eq_true, if_false,
      if_true, hacq]
    cases htb : tryBody s with
    | ok st => simp [htb, hrel1, hrel2]
    | error e => simp [htb, hrel1, hrel2]
  · have hA := (acquire_cases m none).2.1 hacq
    have hrel1 : (m.acquire none).2.release.semaphore = m.semaphore := by
      show (m.acquire none).2.semaphore + 1 = m.semaphore
      omega
    have hrel2 : (m.acquire none).2.release.current_active = m.current_active := by
      show (m.acquire none).2.current_active - 1 = m.current_active
      omega
    simp only [execute_with_limit]
    rw [if_pos hacq]
    cases f with
    | ok a => exact ⟨hrel1, hrel2⟩
    | error e => exact ⟨hrel1, hrel2⟩

/-- Witness for C9: a request whose callback raises, on a fresh gate of
capacity 1, still releases its slot (semaphore back to 1, active back
to 0). -/
theorem pipeline_release_matches_acquire_witness :
    (((ConcurrencyManager.init 1 30).acquire (some 5)).1 = true
      ∧ ((ConcurrencyManager.init 1 30).acquire none).1 = true)
    ∧ (handle_request (ConcurrencyManager.init 1 30)
        ⟨true, true, true, false, .error "boom"⟩).acquires
      = (handle_request (ConcurrencyManager.init 1 30)
          ⟨true, true, true, false, .error "boom"⟩).releases
    ∧ (handle_request (ConcurrencyManager.init 1 30)
        ⟨true, true, true, false, .error "boom"⟩).mgr.semaphore
      = (ConcurrencyManager.init 1 30).semaphore
    ∧ (execute_with_limit (ConcurrencyManager.init 1 30)
        (.error "boom" : Except String Unit)).2.current_active
      = (ConcurrencyManager.init 1 30).current_active := by
  refine ⟨⟨by decide, by decide⟩, ?_, ?_, ?_⟩
  · exact (pipeline_release_matches_acquire (ConcurrencyManager.init 1 30)
      ⟨true, true, true, false, .error "boom"⟩).1
  · exact ((pipeline_release_matches_acquire (ConcurrencyManager.init 1 30)
      ⟨true, true, true, false, .error "boom"⟩).2.2.1
        (by decide) rfl rfl rfl).1
  · exact ((pipeline_release_matches_acquire (ConcurrencyManager.init 1 30)
      ⟨true, true, true, false, .error "boom"⟩).2.2.2
        (.error "boom") (by decide)).2

/-! ## Router (`src/router.py`)

`RouteNode` is the trie node: a dict of literal children, at most one
parametric child with its parameter name, and an optional terminal
route.  The route payload is opaque (`R`).  `find`'s recursive `search`
shares one `params` dict across the whole traversal, assigning on a
parametric descent and deleting on backtracking; the dict is threaded
explicitly, and `del params[k]`'s `KeyError` (reachable when two
parametric depths share a name) is an `Except.error`.
`RouterRegistry.find_route` returns the tree's answer directly whenever
the tree finds a route, so tree-level results carry over to it. -/

inductive RouteNode (R : Type) where
  | node (children : List (String × RouteNode R))
         (param_child : Option (RouteNode R))
         (param_name : Option String)
         (route_info : Option R)
  deriving Repr

/-- The dict of literal children. -/
def RouteNode.children {R : Type} : RouteNode R → List (String × RouteNode R)
  | .node cs _ _ _ => cs

/-- The (at most one) parametric child. -/
def RouteNode.param_child {R : Type} : RouteNode R → Option (RouteNode R)
  | .node _ pc _ _ => pc

/-- The parameter name attached to the parametric child. -/
def RouteNode.param_name {R : Type} : RouteNode R → Option String
  | .node _ _ pn _ => pn

/-- The terminal route stored at this node, if any. -/
def RouteNode.route_info {R : Type} : RouteNode R → Option R
  | .node _ _ _ ri => ri

/-- `RouteNode()`: all fields empty. -/
def RouteNode.empty (R : Type) : RouteNode R := .node [] none none none

/-- `part.startswith('{') and part.endswith('}')` (`src/router.py:40`):
for the one-character affixes this is exactly "first char is `{` and
last char is `}`". -/
def isParamSeg (s : String) : Bool :=
  s.toList.head? = some '{' && s.toList.getLast? = some '}'

/-- `part[1:-1]` (`src/router.py:42`): drop the first and last
character. -/
def paramNameOf (s : String) : String := String.mk ((s.toList.drop 1).dropLast)

/-- `path.strip('/')`: remove every leading and trailing `/`. -/
def pyStripSlashes (p : String) : String :=
  String.mk (((p.toList.dropWhile (· = '/')).reverse.dropWhile (· = '/')).reverse)

/-- `str.split('/')` on a character list: segments between the
separator occurrences — `''` splits to `['']`, consecutive separators
yield empty segments. -/
def splitChars : List Char → List Char → List String
  | [], acc => [String.mk acc.reverse]
  | c :: rest, acc =>
    if c = '/' then String.mk acc.reverse :: splitChars rest []
    else splitChars rest (c :: acc)

/-- `path.strip('/').split('/')` (`src/router.py:36` and `:57`). -/
def splitSlash (p : String) : List String := splitChars (pyStripSlashes p).toList []

/-- `RouteTree.add`'s descent (`src/router.py:34`) over the segment
list: parametric segments create (or descend into) the parametric
child — setting `param_name` only at creation time — and literal
segments create or descend into the dict child; the terminal node's
route is overwritten. -/
def addParts {R : Type} : List String → RouteNode R → R → RouteNode R
  | [], .node cs pc pn _, r => .node cs pc pn (some r)
  | part :: rest, .node cs pc pn ri, r =>
    if isParamSeg part then
      match pc with
      | none => .node cs (some (addParts rest (RouteNode.empty R) r))
          (some (paramNameOf part)) ri
      | some child => .node cs (some (addParts rest child r)) pn ri
    else
      match alookup cs part with
      | none => .node (cs ++ [(part, addParts rest (RouteNode.empty R) r)]) pc pn ri
      | some child => .node (astore cs part (addParts rest child r)) pc pn ri

/-- `del params[k]`: `KeyError` when absent. -/
def dictDel {β : Type} (l : List (String × β)) (key : String) :
    Except String (List (String × β)) :=
  match alookup l key with
  | some _ => .ok (aerase l key)
  | none => .error "KeyError"

/-- `RouteTree.find`'s inner `search` (`src/router.py:60`): literal child
first, then the parametric child with the current segment bound to
`param_name`, unbinding if that branch fails.  The `params` dict is
threaded; a failed branch's net mutations persist into the next
attempt, exactly as for the shared dict. -/
def searchParts {R : Type} : RouteNode R → List String → List (String × String) →
    Except String (Option (RouteNode R) × List (String × String))
  | n, [], ps => .ok (if (RouteNode.route_info n).isSome then some n else none, ps)
  | n, part :: rest, ps =>
    let litStep : Except String (Option (RouteNode R) × List (String × String)) :=
      match alookup (RouteNode.children n) part with
      | some child => searchParts child rest ps
      | none => .ok (none, ps)
    match litStep with
    | .error e => .error e
    | .ok (some found, ps1) => .ok (some found, ps1)
    | .ok (none, ps1) =>
      match RouteNode.param_child n with
      | none => .ok (none, ps1)
      | some pchild =>
        -- `params[node.param_name] = part`; `param_name` is always set
        -- when a parametric child exists, for trees built by `add`
        let key := (RouteNode.param_name n).getD ""
        match searchParts pchild rest (astore ps1 key part) with
        | .error e => .error e
        | .ok (some found, ps2) => .ok (some found, ps2)
        | .ok (none, ps2) =>
          match dictDel ps2 key with
          | .error e => .error e
          | .ok ps3 => .ok (none, ps3)

/-- `RouteTree` (`src/router.py:28`). -/
structure RouteTree (R : Type) where
  root : RouteNode R

/-- `RouteTree()` with an empty root. -/
def RouteTree.empty (R : Type) : RouteTree R := ⟨RouteNode.empty R⟩

/-- `RouteTree.add` (`src/router.py:34`). -/
def RouteTree.add {R : Type} (t : RouteTree R) (path : String) (r : R) : RouteTree R :=
  ⟨addParts (splitSlash path) t.root r⟩

/-- `RouteTree.find` on an already-split segment list: run `search` from
the root with an empty params dict; on success return the node's route
and the accumulated params, on failure `(None, {})`. -/
def findParts {R : Type} (t : RouteTree R) (parts : List String) :
    Except String (Option R × List (String × String)) :=
  match searchParts t.root parts [] with
  | .error e => .error e
  | .ok (some n, ps) => .ok (RouteNode.route_info n, ps)
  | .ok (none, _) => .ok (none, [])

/-- `RouteTree.find` (`src/router.py:55`). -/
def RouteTree.find {R : Type} (t : RouteTree R) (path : String) :
    Except String (Option R × List (String × String)) :=
  findParts t (splitSlash path)

/-! ### Template matching and the bindings a resolve produces -/

/-- A request segment list matches a template segment list: same depth,
parametric template segments match anything, literal ones match only
themselves. -/
def segsMatch : List String → List String → Bool
  | [], [] => true
  | t :: ts, q :: qs => (isParamSeg t || decide (t = q)) && segsMatch ts qs
  | _, _ => false

/-- The parameter names of a template, in order. -/
def tplParamNames : List String → List String
  | [] => []
  | t :: ts => if isParamSeg t then paramNameOf t :: tplParamNames ts else tplParamNames ts

/-- The parameter dict accumulated while matching `req` against `tpl`:
each parametric segment stores the corresponding request segment. -/
def bindParams : List String → List String → List (String × String) →
    List (String × String)
  | t :: ts, q :: qs, ps =>
    if isParamSeg t then bindParams ts qs (astore ps (paramNameOf t) q)
    else bindParams ts qs ps
  | _, _, ps => ps

theorem alookup_astore_other {β : Type} (l : List (String × β)) (key k : String) (v : β)
    (h : k ≠ key) : alookup (astore l key v) k = alookup l k := by
  induction l with
  | nil => simp [astore, alookup, Ne.symm h]
  | cons x rest ih =>
    obtain ⟨k', w⟩ := x
    by_cases hk : k' = key
    · subst hk
      simp [astore, alookup, Ne.symm h]
    · simp [astore, hk, alookup, ih]

theorem bindParams_lookup_of_not_mem : ∀ (tpl req : List String)
    (ps : List (String × String)) (name : String), name ∉ tplParamNames tpl →
    alookup (bindParams tpl req ps) name = alookup ps name := by
  intro tpl
  induction tpl with
  | nil => intro req ps name _; cases req <;> rfl
  | cons t ts ih =>
    intro req ps name h
    cases req with
    | nil => rfl
    | cons q qs =>
      by_cases hp : isParamSeg t = true
      · simp only [tplParamNames, hp, if_true, List.mem_cons] at h
        push_neg at h
        simp only [bindParams, hp, if_true]
        rw [ih qs _ name h.2, alookup_astore_other _ _ _ _ h.1]
      · have ht : isParamSeg t = false := by revert hp; cases isParamSeg t <;> simp
        simp only [tplParamNames, ht, if_false] at h
        simp only [bindParams, ht, if_false]
        exact ih qs ps name h

theorem bindParams_lookup_param : ∀ (tpl req : List String) (i : ℕ)
    (ps : List (String × String)),
    segsMatch tpl req = true → (tplParamNames tpl).Nodup →
    ∀ (hi : i < tpl.length) (hi' : i < req.length),
    isParamSeg (tpl.get ⟨i, hi⟩) = true →
    alookup (bindParams tpl req ps) (paramNameOf (tpl.get ⟨i, hi⟩))
      = some (req.get ⟨i, hi'⟩) := by
  intro tpl
  induction tpl with
  | nil =>
    intro req i ps _ _ hi
    exact absurd hi (by simp)
  | cons t ts ih =>
    intro req i ps hm hnd hi hi' hp
    cases req with
    | nil => simp [segsMatch] at hm
    | cons q qs =>
      simp only [segsMatch, Bool.and_eq_true] at hm
      obtain ⟨_, hm2⟩ := hm
      cases i with
      | zero =>
        simp only [List.get] at hp ⊢
        simp only [bindParams, hp, if_true]
        have hname : paramNameOf t ∉ tplParamNames ts := by
          simp only [tplParamNames, hp, if_true] at hnd
          exact (List.nodup_cons.mp hnd).1
        rw [bindParams_lookup_of_not_mem ts qs _ _ hname]
        exact alookup_astore_self ps (paramNameOf t) q
      | succ j =>
        simp only [List.get] at hp ⊢
        by_cases hpt : isParamSeg t = true
        · simp only [bindParams, hpt, if_true]
          have hnd' : (tplParamNames ts).Nodup := by
            simp only [tplParamNames, hpt, if_true] at hnd
            exact (List.nodup_cons.mp hnd).2
          exact ih qs j _ hm2 hnd' _ _ hp
        · have ht : isParamSeg t = false := by revert hpt; cases isParamSeg t <;> simp
          simp only [bindParams, ht, if_false]
          have hnd' : (tplParamNames ts).Nodup := by
            simpa only [tplParamNames, ht, if_false] using hnd
          exact ih qs j ps hm2 hnd' _ _ hp

/-- Over the one-branch trie obtained by adding a single template to an
empty tree, `search` on any matching request reaches the terminal node
carrying the route and accumulates exactly the template's parameter
bindings, whatever params dict it starts from. -/
theorem search_addParts_single {R : Type} : ∀ (tpl req : List String) (r : R)
    (ps : List (String × String)), segsMatch tpl req = true →
    ∃ n, searchParts (addParts tpl (RouteNode.empty R) r) req ps
        = .ok (some n, bindParams tpl req ps)
      ∧ RouteNode.route_info n = some r := by
  intro tpl
  induction tpl with
  | nil =>
    intro req r ps hm
    cases req with
    | nil => exact ⟨.node [] none none (some r), rfl, rfl⟩
    | cons q qs => simp [segsMatch] at hm
  | cons t ts ih =>
    intro req r ps hm
    cases req with
    | nil => simp [segsMatch] at hm
    | cons q qs =>
      simp only [segsMatch, Bool.and_eq_true, Bool.or_eq_true, decide_eq_true_eq] at hm
      obtain ⟨hm1, hm2⟩ := hm
      by_cases hp : isParamSeg t = true
      · obtain ⟨n, hn, hr⟩ := ih qs r (astore ps (paramNameOf t) q) hm2
        refine ⟨n, ?_, hr⟩
        show searchParts (addParts (t :: ts) (RouteNode.empty R) r) (q :: qs) ps = _
        rw [show addParts (t :: ts) (RouteNode.empty R) r
            = .node [] (some (addParts ts (RouteNode.empty R) r))
                (some (paramNameOf t)) none by
          simp [addParts, RouteNode.empty, hp]]
        simp only [searchParts, RouteNode.children, alookup, RouteNode.param_child,
          RouteNode.param_name, Option.getD_some, hn]
        simp [bindParams, hp]
      · have ht : isParamSeg t = false := by revert hp; cases isParamSeg t <;> simp
        have htq : t = q := by
          rcases hm1 with h | h
          · rw [h] at ht; cases ht
          · exact h
        subst htq
        obtain ⟨n, hn, hr⟩ := ih qs r ps hm2
        refine ⟨n, ?_, hr⟩
        rw [show addParts (t :: ts) (RouteNode.empty R) r
            = .node [(t, addParts ts (RouteNode.empty R) r)] none none none by
          simp [addParts, RouteNode.empty, ht, alookup]]
        simp only [searchParts, RouteNode.children, alookup, eq_self_iff_true, if_true]
        rw [hn]
        simp [bindParams, ht]

/-- C1 as stated is false: register `/u/{id}` and then `/u/{name}/x`.
Resolving `/u/5/x` returns the second route, but because `add` sets
`param_name` only when the parametric child is first created
(`src/router.py:43`), the binding is stored under the first-registered
name `id` — the matched template's own parameter `name` is absent from
the returned map. -/
theorem routeTree_resolve_counterexample :
    (((RouteTree.empty ℕ).add "/u/{id}" 1).add "/u/{name}/x" 2).find "/u/5/x"
      = .ok (some 2, [("id", "5")])
    ∧ alookup [("id", "5")] "name" = none
    ∧ alookup [("id", "5")] "id" = some "5" :=
  ⟨rfl, rfl, rfl⟩

/-- C1 (amended): for a single template added to an empty tree, every
matching request resolves to that route with every named parameter (the
names being distinct) bound to its corresponding path segment; at a node
where both a literal and a parametric child match, the literal strictly
wins, while a non-matching segment falls through to the parametric
child; a parametric binding whose subtree dead-ends is undone before an
alternative is tried (visible both in the backtrack-to-parametric
success and in the empty dict after an overall failure).  When several
routes share a parametric slot, bindings use the slot's first-registered
parameter name (per the counterexample), not necessarily the matched
template's own. -/
theorem routeTree_resolve_spec {R : Type} (tpl req : List String) (r : R)
    (hm : segsMatch tpl req = true) :
    (findParts ⟨addParts tpl (RouteNode.empty R) r⟩ req
        = .ok (some r, bindParams tpl req []))
    ∧ ((tplParamNames tpl).Nodup →
        ∀ (i : ℕ) (hi : i < tpl.length) (hi' : i < req.length),
          isParamSeg (tpl.get ⟨i, hi⟩) = true →
          alookup (bindParams tpl req []) (paramNameOf (tpl.get ⟨i, hi⟩))
            = some (req.get ⟨i, hi'⟩))
    ∧ (∀ (lit pseg other : String) (r1 r2 : R),
        isParamSeg lit = false → isParamSeg pseg = true → other ≠ lit →
          findParts ⟨addParts [pseg] (addParts [lit] (RouteNode.empty R) r1) r2⟩ [lit]
            = .ok (some r1, [])
          ∧ findParts ⟨addParts [pseg] (addParts [lit] (RouteNode.empty R) r1) r2⟩ [other]
            = .ok (some r2, [(paramNameOf pseg, other)]))
    ∧ (∀ (pseg lit2 q other : String) (r1 : R),
        isParamSeg pseg = true → isParamSeg lit2 = false → other ≠ lit2 →
          searchParts (addParts [pseg, lit2] (RouteNode.empty R) r1) [q, other] []
            = .ok (none, []))
    ∧ (∀ (lit pseg a b : String) (r1 r2 : R),
        isParamSeg lit = false → isParamSeg pseg = true → isParamSeg a = false →
        isParamSeg b = false → a ≠ b →
          findParts ⟨addParts [pseg, b] (addParts [lit, a] (RouteNode.empty R) r1) r2⟩
              [lit, b]
            = .ok (some r2, [(paramNameOf pseg, lit)])) := by
  refine ⟨?_, ?_, ?_, ?_, ?_⟩
  · obtain ⟨n, hn, hr⟩ := search_addParts_single tpl req r [] hm
    simp only [findParts, hn, hr]
  · intro hnd i hi hi' hp
    exact bindParams_lookup_param tpl req i [] hm hnd hi hi' hp
  · intro lit pseg other r1 r2 hlit hpseg hother
    have htree : addParts [pseg] (addParts [lit] (RouteNode.empty R) r1) r2
        = .node [(lit, .node [] none none (some r1))]
            (some (.node [] none none (some r2))) (some (paramNameOf pseg)) none := by
      simp [addParts, RouteNode.empty, hlit, hpseg, alookup]
    constructor
    · rw [findParts, htree]
      simp [searchParts, RouteNode.children, alookup, RouteNode.route_info]
    · rw [findParts, htree]
      simp [searchParts, RouteNode.children, alookup, RouteNode.route_info,
        RouteNode.param_child, RouteNode.param_name, hother, Ne.symm hother, astore]
  · intro pseg lit2 q other r1 hpseg hlit2 hother
    have htree : addParts [pseg, lit2] (RouteNode.empty R) r1
        = .node [] (some (.node [(lit2, .node [] none none (some r1))] none none none))
            (some (paramNameOf pseg)) none := by
      simp [addParts, RouteNode.empty, hpseg, hlit2, alookup]
    rw [htree]
    simp [searchParts, RouteNode.children, alookup, RouteNode.route_info,
      RouteNode.param_child, RouteNode.param_name, hother, Ne.symm hother, astore,
      dictDel, aerase]
  · intro lit pseg a b r1 r2 hlit hpseg ha hb hab
    have htree : addParts [pseg, b] (addParts [lit, a] (RouteNode.empty R) r1) r2
        = .node [(lit, .node [(a, .node [] none none (some r1))] none none none)]
            (some (.node [(b, .node [] none none (some r2))] none none none))
            (some (paramNameOf pseg)) none := by
      simp [addParts, RouteNode.empty, hlit, hpseg, ha, hb, alookup]
    rw [findParts, htree]
    simp [searchParts, RouteNode.children, alookup, RouteNode.route_info,
      RouteNode.param_child, RouteNode.param_name, hab, Ne.symm hab, astore]

/-- Witness for C1 (amended) on the spec's own example: registering
`/api/users/{id}` and resolving `/api/users/42` yields the route and
`{id: "42"}`; plus concrete instances of the precedence and
backtracking conjuncts. -/
theorem routeTree_resolve_spec_witness :
    segsMatch ["api", "users", "{id}"] ["api", "users", "42"] = true
    ∧ findParts ⟨addParts ["api", "users", "{id}"] (RouteNode.empty ℕ) 7⟩
        ["api", "users", "42"]
      = .ok (some 7, bindParams ["api", "users", "{id}"] ["api", "users", "42"] [])
    ∧ alookup (bindParams ["api", "users", "{id}"] ["api", "users", "42"] []) "id"
        = some "42"
    ∧ ((RouteTree.empty ℕ).add "/api/users/{id}" 7).find "/api/users/42"
        = .ok (some 7, [("id", "42")])
    ∧ findParts ⟨addParts ["{v}"] (addParts ["lit"] (RouteNode.empty ℕ) 1) 2⟩ ["lit"]
        = .ok (some 1, [])
    ∧ searchParts (addParts ["{v}", "end"] (RouteNode.empty ℕ) 1) ["x", "y"] []
        = .ok (none, []) := by
  have h := routeTree_resolve_spec (R := ℕ) ["api", "users", "{id}"]
    ["api", "users", "42"] 7 (by decide)
  refine ⟨by decide, h.1, ?_, rfl, ?_, ?_⟩
  · exact h.2.1 (by decide) 2 (by norm_num) (by norm_num) (by decide)
  · exact (h.2.2.1 "lit" "{v}" "zz" 1 2 (by decide) (by decide) (by decide)).1
  · exact h.2.2.2.1 "{v}" "end" "x" "y" 1 (by decide) (by decide) (by decide)

end ManagerAPI
